import Mathlib

/-!
Shallow embedding of the unstructured-mesh geometry core of `mikeio`
(`src/mikeio/dfsu.py`, class `_UnstructuredGeometry` and the
`get_element_area` routine that reads from the dotnet source object).

Modelling conventions:
* Python/NumPy integers are modelled as `Int` (ids and codes are small, no
  overflow is reachable in the verified claims), counts as `Nat`.
* Floating point coordinates are modelled as exact rationals `ℚ`; every
  arithmetic step appearing in the verified numeric claims (areas of the
  3-4-5 triangle and the unit square) is exact in IEEE double as well.
* Python attributes that are initialised to `None` at class level are
  `Option` fields; fallible code returns `Except String` with a short tag
  naming the Python exception that the corresponding statement raises.
* `print`-and-continue branches of the source are modelled as the normal
  return value they produce (the printed text is not part of the state).
* The cached 2d geometry `_geom2d` of the source is not a field here (a
  structure cannot contain itself); no claim refers to it.
-/

deriving instance DecidableEq for Except

namespace Mikeio

abbrev Q3 : Type := ℚ × ℚ × ℚ

/-- Python `range(n)` materialised as a list of Python ints. -/
def rangeZ (n : Nat) : List Int := (List.range n).map Int.ofNat

/-- Python / NumPy subscription `l[i]` on a sequence: negative indices wrap
around once, anything out of range raises IndexError. -/
def pyIdx {α : Type} (l : List α) (i : Int) : Except String α :=
  if 0 ≤ i then
    match l.get? i.toNat with
    | some a => .ok a
    | none => .error "IndexError"
  else if 0 ≤ (l.length : Int) + i then
    match l.get? ((l.length : Int) + i).toNat with
    | some a => .ok a
    | none => .error "IndexError"
  else .error "IndexError"

/-- Lookup in a Python dict built with `dict(assocList)`: on duplicate keys
the last binding wins. -/
def lookupLast : List (Int × Nat) → Int → Option Nat
  | [], _ => none
  | p :: rest, k =>
    match lookupLast rest k with
    | some v => some v
    | none => if p.1 = k then some p.2 else none

/-- Effectful map over a list in the `Except String` monad, stopping at the
first error (the order Python loops raise in). -/
def emap {α β : Type} (f : α → Except String β) : List α → Except String (List β)
  | [] => .ok []
  | a :: l =>
    match f a with
    | .error e => .error e
    | .ok b =>
      match emap f l with
      | .error e => .error e
      | .ok bs => .ok (b :: bs)

/-- Python `None` where the source would next raise a TypeError when the
value is used (subscripted, iterated, compared or passed to `range`). -/
def orTypeError {α : Type} : Option α → Except String α
  | some a => .ok a
  | none => .error "TypeError"

/-- The state of `_UnstructuredGeometry`: one `Option` field per class-level
attribute of the Python class (all of which are pre-declared as `None`). -/
structure Geometry where
  _type : Option Int := none
  _projstr : Option String := none
  _n_nodes : Option Nat := none
  _n_elements : Option Nat := none
  _nc : Option (List Q3) := none
  _ec : Option (List Q3) := none
  _codes : Option (List Int) := none
  _valid_codes : Option (List Int) := none
  _element_ids : Option (List Int) := none
  _node_ids : Option (List Int) := none
  _element_table : Option (List (List Int)) := none
  _element_table_dotnet : Option (List (List Int)) := none
  _top_elems : Option (List Int) := none
  _n_layers_column : Option (List Int) := none
  _bot_elems : Option (List Int) := none
  _n_layers : Option Nat := none
  _n_sigma : Option Nat := none
deriving DecidableEq, Repr

/-- A freshly constructed `_UnstructuredGeometry()`. -/
def emptyGeometry : Geometry := {}

/-- Property `is_geo`: the projection string equals "LONG/LAT". -/
def is_geo (g : Geometry) : Bool := g._projstr = some "LONG/LAT"

/-- Value of the `element_table` property: the stored table if set,
otherwise the dotnet table decoded to 0-based node ids (the source also
caches the decoded table back into `_element_table`; the cached value is
identical to this one). -/
def element_table_val (g : Geometry) : Option (List (List Int)) :=
  match g._element_table with
  | some t => some t
  | none => g._element_table_dotnet.map (fun t => t.map (fun row => row.map (fun nd => nd - 1)))

/-- Property `max_nodes_per_element`: fold of the row lengths of the element
table, `none` when the table is `None` (iterating `None` raises). -/
def max_nodes_per_element_val (g : Geometry) : Option Nat :=
  (element_table_val g).map (fun tbl => tbl.foldl (fun m row => max m row.length) 0)

/-- `set_nodes(node_coordinates, codes=None, node_ids=None,
projection_string=None)`: stores the arrays as given; `codes` defaults to
zeros of the coordinate length, `n_nodes` is set to `len(codes)`,
`node_ids` defaults to `range(n_nodes)`, the projection defaults to
"LONG/LAT". The source performs no shape validation and never raises. -/
def set_nodes (g : Geometry) (node_coordinates : List Q3) (codes : Option (List Int))
    (node_ids : Option (List Int)) (projection_string : Option String) : Geometry :=
  let cs := codes.getD (List.replicate node_coordinates.length 0)
  let nn := cs.length
  let ids := node_ids.getD (rangeZ nn)
  { g with _nc := some node_coordinates, _codes := some cs, _n_nodes := some nn,
           _node_ids := some ids,
           _projstr := some (projection_string.getD "LONG/LAT") }

/-- `set_elements(element_table, element_ids=None, geometry_type=None)`:
stores the table, sets `n_elements = len(element_table)`, ids default to
`range(n_elements)`; a missing type is guessed from the max nodes per
element of the freshly stored table (the `getD 0` branch is unreachable
because the table was just stored). -/
def set_elements (g : Geometry) (element_table : List (List Int))
    (element_ids : Option (List Int)) (geometry_type : Option Int) : Geometry :=
  let ne := element_table.length
  let ids := element_ids.getD (rangeZ ne)
  let g1 := { g with _element_table := some element_table, _n_elements := some ne,
                     _element_ids := some ids }
  match geometry_type with
  | some t => { g1 with _type := some t }
  | none =>
    let mx := (max_nodes_per_element_val g1).getD 0
    { g1 with _type := some (if mx < 5 then (0 : Int) else 4) }

/-- Value of the `valid_codes` property together with the updated state: the
cached list if present, else `list(set(codes))` computed and cached.
CPython's set iteration order for small ints is not the first-occurrence
order used here; no verified claim depends on the order of this list. -/
def valid_codes_state (g : Geometry) : Except String (List Int × Geometry) :=
  match g._valid_codes with
  | some v => .ok (v, g)
  | none =>
    match g._codes with
    | none => .error "TypeError"
    | some cs =>
      let v := cs.dedup
      .ok (v, { g with _valid_codes := some v })

/-- `reindex()`: builds `dict(zip(node_ids, range(n_nodes)))`, rewrites the
first `n_elements` rows of the element table through it (KeyError when a
node reference is not a known node id, IndexError when the table is shorter
than `n_elements`), then replaces node and element ids by dense ranges. A
failing Python call would leave the object partially mutated; the verified
claims only concern successful calls, so errors discard the state here. -/
def reindex (g : Geometry) : Except String Geometry :=
  match g._n_nodes, g._n_elements with
  | some nn, some ne =>
    match g._node_ids with
    | none => .error "TypeError"
    | some ids =>
      let d := ids.zip (List.range nn)
      match g._element_table with
      | none =>
        if ne = 0 then
          .ok { g with _node_ids := some (rangeZ nn), _element_ids := some (rangeZ ne) }
        else .error "TypeError"
      | some tbl =>
        match emap (fun row => emap (fun r =>
            match lookupLast d r with
            | some v => .ok (Int.ofNat v)
            | none => .error "KeyError") row) (tbl.take ne) with
        | .error e => .error e
        | .ok rw =>
          if ne ≤ tbl.length then
            .ok { g with _element_table := some (rw ++ tbl.drop ne),
                         _node_ids := some (rangeZ nn), _element_ids := some (rangeZ ne) }
          else .error "IndexError"
  | _, _ => .error "TypeError"

/-- NumPy `np.unique`: the sorted list of distinct values. -/
def pyUnique (l : List Int) : List Int :=
  List.insertionSort (fun a b : Int => a ≤ b) l.dedup

/-- Row-gathering loop shared by the branches of
`get_nodes_and_table_for_elements`: the table rows at the given element
positions plus the sorted unique node ids they mention. -/
def gatherRows (tbl : List (List Int)) (element_ids : List Int) :
    Except String (List Int × List (List Int)) :=
  match emap (fun j => pyIdx tbl j) element_ids with
  | .error e => .error e
  | .ok rows => .ok (pyUnique rows.flatten, rows)

/-- The 3d variant of the gathering loop: each row is cut to its lower half
for "bottom" or its upper half for "top", splitting at the midpoint. -/
def gatherRowsHalved (tbl : List (List Int)) (element_ids : List Int)
    (node_layers : Option String) : Except String (List Int × List (List Int)) :=
  match emap (fun j =>
      match pyIdx tbl j with
      | .error e => .error e
      | .ok row =>
        .ok (if node_layers = some "bottom" then row.take (row.length / 2)
             else row.drop (row.length / 2))) element_ids with
  | .error e => .error e
  | .ok rows => .ok (pyUnique rows.flatten, rows)

/-- `get_nodes_and_table_for_elements(element_ids, node_layers)`: gathers the
table rows at the given element positions (full rows for `None`/"all" or a
2d type, the lower/upper half split at the midpoint for "bottom"/"top" on a
3d type), plus the sorted unique node ids they reference. The `_type`
comparison is only reached when `node_layers` is neither `None` nor "all",
mirroring Python's short-circuit `or`. -/
def get_nodes_and_table_for_elements (g : Geometry) (element_ids : List Int)
    (node_layers : Option String) : Except String (List Int × List (List Int)) :=
  if node_layers = none ∨ node_layers = some "all" then
    match element_table_val g with
    | none => .error "TypeError"
    | some tbl => gatherRows tbl element_ids
  else
    match g._type with
    | none => .error "TypeError"
    | some t =>
      if t ≤ 0 then
        match element_table_val g with
        | none => .error "TypeError"
        | some tbl => gatherRows tbl element_ids
      else if node_layers ≠ some "bottom" ∧ node_layers ≠ some "top" then
        .error "InvalidNodeLayers"
      else
        match element_table_val g with
        | none => .error "TypeError"
        | some tbl => gatherRowsHalved tbl element_ids node_layers

/-- `elements_to_geometry(elements, node_layers)`: extracts the nodes and
table for the selected elements, builds a fresh geometry from them (with the
selected slices of coordinates, codes and ids), copies the type and — for a
layered type — the layer metadata and the selected slice of `_top_elems`,
and reindexes the result. -/
def elements_to_geometry (g : Geometry) (elements : List Int)
    (node_layers : Option String) : Except String Geometry := do
  let pair ← get_nodes_and_table_for_elements g elements node_layers
  let node_ids := pair.1
  let elem_tbl := pair.2
  let nc ← orTypeError g._nc
  let node_coords ← emap (fun i => pyIdx nc i) node_ids
  let cs ← orTypeError g._codes
  let codes ← emap (fun i => pyIdx cs i) node_ids
  let eids ← orTypeError g._element_ids
  let subIds ← emap (fun i => pyIdx eids i) elements
  let g1 := set_nodes emptyGeometry node_coords (some codes) (some node_ids) g._projstr
  let g2 := set_elements g1 elem_tbl (some subIds) none
  let g3 := { g2 with _type := g._type }
  let t ← orTypeError g3._type
  let g4 ← if 0 < t then do
      let tops ← orTypeError g._top_elems
      let subTops ← emap (fun i => pyIdx tops i) elements
      pure { g3 with _top_elems := some subTops, _n_layers := g._n_layers,
                     _n_sigma := g._n_sigma }
    else pure g3
  reindex g4

/-- Value of the `top_element_ids` property. With no layer metadata the
source prints a message and returns the (possibly `None`) cached field; on a
layered geometry with a cold cache it calls the dotnet utility
`DfsuUtil.FindTopLayerElements`, which is outside this repository's source
and is modelled as an unavailable external call. -/
def top_element_ids_val (g : Geometry) : Except String (Option (List Int)) :=
  match g._n_layers with
  | none => .ok g._top_elems
  | some _ =>
    match g._top_elems with
    | some t => .ok (some t)
    | none => .error "ExternalDotnetCall"

/-- Value of the `num_layers_per_column` property: with no layer metadata it
prints and returns the cached field (normally `None`); otherwise the cache,
or the forward difference of `top_element_ids` computed via the shifted
`tmp` array (`tmp[0] = -1`, so column 0 gets `top[0] + 1`; an empty top
array would raise on `tmp[0]`). -/
def num_layers_per_column_val (g : Geometry) : Except String (Option (List Int)) :=
  match g._n_layers with
  | none => .ok g._n_layers_column
  | some _ =>
    match g._n_layers_column with
    | some v => .ok (some v)
    | none => do
      let topsO ← top_element_ids_val g
      match topsO with
      | none => .error "TypeError"
      | some tops =>
        match tops with
        | [] => .error "IndexError"
        | t0 :: rest => .ok (some ((t0 + 1) :: (rest.zip tops).map (fun p => p.1 - p.2)))

/-- Value of the `bottom_element_ids` property: with no layer metadata it
prints and returns the cached field; otherwise the cache, or elementwise
`top_element_ids - num_layers_per_column + 1` (a NumPy broadcast, which
raises when stale caches have mismatched lengths). -/
def bottom_element_ids_val (g : Geometry) : Except String (Option (List Int)) :=
  match g._n_layers with
  | none => .ok g._bot_elems
  | some _ =>
    match g._bot_elems with
    | some v => .ok (some v)
    | none => do
      let topsO ← top_element_ids_val g
      let numlO ← num_layers_per_column_val g
      match topsO, numlO with
      | some tops, some numl =>
        if tops.length = numl.length then
          .ok (some ((tops.zip numl).map (fun p => p.1 - p.2 + 1)))
        else .error "ValueError"
      | _, _ => .error "TypeError"

/-- `to_2d_geometry()`: with no layer metadata the source prints a message
and returns `None` (it does not raise). Otherwise it extracts the bottom
elements with their bottom-layer nodes, builds a fresh geometry, tags it
with type -1 (Mesh) and reindexes it. The property accesses on `self` also
warm `self`'s layer caches with exactly the values computed here; only the
returned value is modelled. -/
def to_2d_geometry (g : Geometry) : Except String (Option Geometry) :=
  match g._n_layers with
  | none => .ok none
  | some _ => do
    let elemsO ← bottom_element_ids_val g
    let elem_ids ← orTypeError elemsO
    let pair ← get_nodes_and_table_for_elements g elem_ids (some "bottom")
    let node_ids := pair.1
    let elem_tbl := pair.2
    let nc ← orTypeError g._nc
    let node_coords ← emap (fun i => pyIdx nc i) node_ids
    let cs ← orTypeError g._codes
    let codes ← emap (fun i => pyIdx cs i) node_ids
    let eids ← orTypeError g._element_ids
    let subIds ← emap (fun i => pyIdx eids i) elem_ids
    let g1 := set_nodes emptyGeometry node_coords (some codes) (some node_ids) g._projstr
    let g2 := set_elements g1 elem_tbl (some subIds) none
    let g3 := { g2 with _type := some (-1) }
    let g' ← reindex g3
    .ok (some g')

/-- `get_element_ids_layer_n(n)`: with no layer metadata the source prints
and returns `None`. Layer numbers in `(n_z, n_layers]` are folded to
`n - n_layers`; out-of-range layers raise; `n ≤ 0` returns
`top_element_ids + n` (restricted to nothing — every column is kept);
`n > 0` returns the bottom elements of the columns with at least
`n_layers - n + 1` layers, shifted by `n`. -/
def get_element_ids_layer_n (g : Geometry) (n : Int) : Except String (Option (List Int)) :=
  match g._n_layers with
  | none => .ok none
  | some nLay => do
    let nS ← orTypeError g._n_sigma
    let nl : Int := nLay
    let n_z : Int := nl - nS
    let n1 : Int := if n_z < n ∧ n ≤ nl then n - nl else n
    if n1 < -nl ∨ nl < n1 then .error "InvalidLayer"
    else if n1 ≤ 0 then
      if n1 < -(nS : Int) then .error "InvalidSigmaLayer"
      else do
        let topsO ← top_element_ids_val g
        let tops ← orTypeError topsO
        .ok (some (tops.map (fun e => e + n1)))
    else do
      let botsO ← bottom_element_ids_val g
      let bots ← orTypeError botsO
      let numlO ← num_layers_per_column_val g
      let numl ← orTypeError numlO
      if bots.length = numl.length then
        .ok (some (((bots.zip numl).filter (fun p => nl - n1 + 1 ≤ p.2)).map
          (fun p => p.1 + n1)))
      else .error "IndexError"

/-- `get_element_coords()`: for each of the first `n_elements` rows of the
element table, the arithmetic mean of the referenced node coordinates (the
source pre-computes `max_nodes_per_element`, which touches the element
table first and raises on `None`). A zero-node element yields NaN in NumPy;
rational division by zero yields 0 here — no verified claim evaluates such
an element. -/
def get_element_coords (g : Geometry) : Except String (List Q3) :=
  match g._n_elements with
  | none => .error "TypeError"
  | some ne =>
    match element_table_val g with
    | none => .error "TypeError"
    | some tbl =>
      emap (fun j => do
          let row ← pyIdx tbl (Int.ofNat j)
          let nc := g._nc
          let cs ← emap (fun r =>
            match nc with
            | none => .error "TypeError"
            | some l => pyIdx l r) row
          let nn : ℚ := (row.length : ℚ)
          .ok ((cs.map (fun c => c.1)).sum / nn, (cs.map (fun c => c.2.1)).sum / nn,
               (cs.map (fun c => c.2.2)).sum / nn))
        (List.range ne)

/-- Value of the `element_coordinates` property: the cached centroids if
present, otherwise `get_element_coords`. -/
def element_coordinates_val (g : Geometry) : Except String (List Q3) :=
  match g._ec with
  | some ec => .ok ec
  | none => get_element_coords g

/-- Squared distances from the query point to every centroid: horizontal
only when `z` is absent, full 3d otherwise. -/
def distList (ec : List Q3) (x y : ℚ) (z : Option ℚ) : List ℚ :=
  match z with
  | none => ec.map (fun c => (c.1 - x) ^ 2 + (c.2.1 - y) ^ 2)
  | some zz => ec.map (fun c => (c.1 - x) ^ 2 + (c.2.1 - y) ^ 2 + (c.2.2 - zz) ^ 2)

/-- NumPy `d.argsort()` modelled as one concrete sorting permutation of the
index range (insertion sort by value). The source's default quicksort does
not specify the relative order of equal values; the verified statements
about this function use only that the result is a permutation of the index
range ordered by value, which holds for every argsort implementation. -/
def argsort (d : List ℚ) : List Nat :=
  List.insertionSort (fun i j => d.getD i 0 ≤ d.getD j 0) (List.range d.length)

/-- Result of `find_n_closest_element_index`: a bare scalar for `n = 1`,
an index array otherwise. -/
inductive FindResult : Type
  | scalar (i : Nat)
  | arr (l : List Nat)
deriving DecidableEq, Repr

/-- `find_n_closest_element_index(x, y, z=None, n=1)`: sorts element indices
by squared distance from the point to the element centroids, takes the
first `n`, and for `n = 1` extracts the single index (IndexError on an
empty geometry). -/
def find_n_closest_element_index (g : Geometry) (x y : ℚ) (z : Option ℚ) (n : Nat) :
    Except String FindResult := do
  let ec ← element_coordinates_val g
  let d := distList ec x y z
  let idx := (argsort d).take n
  if n = 1 then
    match idx with
    | [] => .error "IndexError"
    | i :: _ => .ok (.scalar i)
  else .ok (.arr idx)

/-- The arrays `get_element_area` reads from the dotnet `_source` object:
node x and y coordinates and the 1-based element table. The source loops
over `range(self._source.NumberOfElements)`, which equals the table length. -/
structure DotnetSource where
  X : List ℚ
  Y : List ℚ
  elementTable : List (List Int)
deriving DecidableEq, Repr

/-- The coordinate-gathering loop of `get_element_area`: for node number
`nd` of an element it reads `(xn[nd-1], yn[nd-1])`. -/
def fetchXY (src : DotnetSource) (nodes : List Int) : Except String (List (ℚ × ℚ)) :=
  emap (fun nd => do
      let x ← pyIdx src.X (nd - 1)
      let y ← pyIdx src.Y (nd - 1)
      .ok (x, y)) nodes

/-- Per-element area computation of `get_element_area` on the gathered
corner coordinates: signed half cross product of the edge vectors ab and
ac, plus the second fan triangle for a quad, absolute value at the end.
`cosdeg` stands for NumPy's `cos(deg2rad(.))` and `piF` for the float
`np.pi`; both are external float constants, only used on the geographic
branch. -/
def elemAreaCalc (geo : Bool) (cosdeg : ℚ → ℚ) (piF : ℚ) (ps : List (ℚ × ℚ)) : ℚ :=
  let p0 := ps.getD 0 (0, 0)
  let p1 := ps.getD 1 (0, 0)
  let p2 := ps.getD 2 (0, 0)
  let p3 := ps.getD 3 (0, 0)
  let abx := p1.1 - p0.1
  let aby := p1.2 - p0.2
  let acx := p2.1 - p0.1
  let acy := p2.2 - p0.2
  let adx := p3.1 - p0.1
  let ady := p3.2 - p0.2
  let isquad := 3 < ps.length
  let k := 6366707 * piF / 180
  let cosYe := cosdeg ((ps.map (fun p => p.2)).sum / (ps.length : ℚ))
  let abx := if geo then k * abx * cosYe else abx
  let aby := if geo then k * aby else aby
  let acx := if geo then k * acx * cosYe else acx
  let acy := if geo then k * acy else acy
  let adx := if geo then k * adx * cosYe else adx
  let ady := if geo then k * ady else ady
  let area := (1 / 2 : ℚ) * (abx * acy - aby * acx) +
    (if isquad then (1 / 2 : ℚ) * (acx * ady - acy * adx) else 0)
  |area|

/-- `get_element_area()`: reads node coordinates and the 1-based element
table from the dotnet source; the 8-slot scratch buffers overflow above 8
nodes (IndexError), and an element with fewer than 3 nodes would read
leftover buffer contents from the previous iteration — a memory effect
modelled as a failure, unreachable in the verified claims. -/
def get_element_area (g : Geometry) (src : DotnetSource) (cosdeg : ℚ → ℚ) (piF : ℚ) :
    Except String (List ℚ) :=
  emap (fun nodes =>
      if 8 < nodes.length then .error "IndexError"
      else if nodes.length < 3 then .error "UninitializedBuffer"
      else do
        let ps ← fetchXY src nodes
        .ok (elemAreaCalc (is_geo g) cosdeg piF ps)) src.elementTable

/-- Modelled from the spec: the area of a triangle as half the magnitude of
the cross product of the edge vectors ab and ac (the formula the spec
states for `get_element_area`, for comparison against the source). -/
def specTriangleArea (a b c : ℚ × ℚ) : ℚ :=
  |((b.1 - a.1) * (c.2 - a.2) - (b.2 - a.2) * (c.1 - a.1)) / 2|

/-- Modelled from the spec: the quadrilateral area as the absolute value of
the summed triangle fan, half of ab x ac plus half of ac x ad. -/
def specQuadArea (a b c d : ℚ × ℚ) : ℚ :=
  |((b.1 - a.1) * (c.2 - a.2) - (b.2 - a.2) * (c.1 - a.1)) / 2 +
   ((c.1 - a.1) * (d.2 - a.2) - (c.2 - a.2) * (d.1 - a.1)) / 2|

/-- Boolean check that every node reference of the stored element table
resolves to an existing node: a non-negative index below `n_nodes`. -/
def refsResolveB (g : Geometry) : Bool :=
  match g._element_table, g._n_nodes with
  | some tbl, some nn =>
    tbl.all (fun row => row.all (fun r => decide (0 ≤ r) && decide (r < (nn : Int))))
  | _, _ => false

/-- One row of the element table rewritten through the old-to-new node id
dictionary built by `reindex` (total closed form; on the inputs where it is
used every lookup succeeds, so the default never fires). -/
def rewriteRow (ids : List Int) (nn : Nat) (row : List Int) : List Int :=
  row.map (fun r => Int.ofNat ((lookupLast (ids.zip (List.range nn)) r).getD 0))

/-! Concrete instances used by witnesses and counterexamples. -/

/-- Concrete geometry with permuted node ids: 2 nodes with ids `[1, 0]` and
one element referencing both. -/
def c1Geom : Geometry :=
  { emptyGeometry with
    _n_nodes := some 2, _n_elements := some 1,
    _node_ids := some [1, 0], _element_table := some [[0, 1, 1]] }

/-- The geometry `c1Geom` after renumbering: dense ids and the element row
rewritten through the dictionary mapping id 1 to 0 and id 0 to 1. -/
def c1Geom' : Geometry :=
  { emptyGeometry with
    _n_nodes := some 2, _n_elements := some 1,
    _node_ids := some (rangeZ 2), _element_ids := some (rangeZ 1),
    _element_table := some [[1, 0, 0]] }

/-- Concrete layered geometry: 3 layers (2 sigma), two columns whose top
elements are 2 and 5. -/
def c2Geom : Geometry :=
  { emptyGeometry with
    _n_layers := some 3, _n_sigma := some 2, _top_elems := some [2, 5] }

/-- Concrete consistent layered geometry: one vertical column of two
6-node prisms stacked on 9 nodes, 2 sigma layers. -/
def c3Geom : Geometry :=
  { emptyGeometry with
    _type := some 4, _projstr := some "UTM-33",
    _n_nodes := some 9, _n_elements := some 2,
    _nc := some [(0, 0, 0), (1, 0, 0), (0, 1, 0), (0, 0, 1), (1, 0, 1), (0, 1, 1),
                 (0, 0, 2), (1, 0, 2), (0, 1, 2)],
    _codes := some [0, 0, 0, 0, 0, 0, 0, 0, 0],
    _node_ids := some (rangeZ 9), _element_ids := some (rangeZ 2),
    _element_table := some [[0, 1, 2, 3, 4, 5], [3, 4, 5, 6, 7, 8]],
    _top_elems := some [1], _n_layers := some 2, _n_sigma := some 2 }

/-- The geometry produced by `elements_to_geometry c3Geom [0] "all"`. -/
def c3Res : Geometry :=
  (elements_to_geometry c3Geom [0] (some "all")).toOption.getD emptyGeometry

/-- The geometry produced by `to_2d_geometry c3Geom`. -/
def c4Res : Geometry :=
  ((to_2d_geometry c3Geom).toOption.getD none).getD emptyGeometry

/-- A geometry with a projected (non-geographic) coordinate system. -/
def planarGeom : Geometry := { emptyGeometry with _projstr := some "UTM-33" }

/-- Dotnet source holding one right triangle with legs of length 3 and 4
(1-based element table, as in the dotnet source object). -/
def triSource : DotnetSource :=
  { X := [0, 3, 0], Y := [0, 0, 4], elementTable := [[1, 2, 3]] }

/-- Dotnet source holding one unit square. -/
def squareSource : DotnetSource :=
  { X := [0, 1, 1, 0], Y := [0, 0, 1, 1], elementTable := [[1, 2, 3, 4]] }

/-- Trivial stand-in for the external cosine routine, used only where the
geographic branch is dead. -/
def czero : ℚ → ℚ := fun _ => 0

/-- A plain 2d triangle geometry with no layer metadata. -/
def c8Geom : Geometry :=
  { emptyGeometry with
    _type := some 0, _projstr := some "UTM-33",
    _n_nodes := some 3, _n_elements := some 1,
    _nc := some [(0, 0, 0), (1, 0, 0), (0, 1, 0)],
    _codes := some [0, 0, 0],
    _node_ids := some (rangeZ 3), _element_ids := some (rangeZ 1),
    _element_table := some [[0, 1, 2]] }

/-- A geometry carrying warm caches: valid codes and centroids were read
before any mutation, and the codes array has since been conceptually
relevant to staleness questions. -/
def c9Cached : Geometry :=
  { emptyGeometry with
    _codes := some [5], _valid_codes := some [0], _ec := some [(0, 0, 0)] }

/-- Step 0 of the staleness scenario: a fresh geometry given one interior
node (so its codes are `[0]`). -/
def c9g0 : Geometry := set_nodes emptyGeometry [(0, 0, 0)] none none none

/-- Step 1: the state after the `valid_codes` property has been read once
(the set `[0]` is now cached). -/
def c9g1 : Geometry := ((valid_codes_state c9g0).toOption.getD ([], emptyGeometry)).2

/-- Step 2: the node arrays are replaced via `set_nodes` with a new code
array `[5]`. -/
def c9g2 : Geometry := set_nodes c9g1 [(0, 0, 0)] (some [5]) none none

/-- A geometry with zero elements (as produced by `set_nodes([])` followed
by `set_elements([])`). -/
def c10Empty : Geometry :=
  set_elements (set_nodes emptyGeometry [] none none none) [] none none

/-- A 2-element geometry whose centroid cache is warm (as after a prior
read of `element_coordinates`). -/
def c10Geom : Geometry :=
  { emptyGeometry with
    _n_elements := some 2, _ec := some [(0, 0, 0), (3, 4, 0)] }

/-! Helper lemmas about the embedding primitives. -/

theorem emap_ok_iff {α β : Type} (f : α → Except String β) :
    ∀ (l : List α) (l' : List β),
      emap f l = .ok l' ↔ List.Forall₂ (fun a b => f a = .ok b) l l' := by
  intro l
  induction l with
  | nil =>
    intro l'
    constructor
    · intro h
      cases l' with
      | nil => exact List.Forall₂.nil
      | cons b bs => simp [emap] at h
    · intro h
      cases h
      rfl
  | cons a rest ih =>
    intro l'
    constructor
    · intro h
      unfold emap at h
      cases hfa : f a with
      | error e => rw [hfa] at h; exact absurd h (by simp)
      | ok b =>
        rw [hfa] at h
        cases hrest : emap f rest with
        | error e => rw [hrest] at h; exact absurd h (by simp)
        | ok bs =>
          rw [hrest] at h
          simp only [Except.ok.injEq] at h
          subst h
          exact List.Forall₂.cons hfa ((ih bs).mp hrest)
    · intro h
      cases h with
      | cons hab hrest =>
        unfold emap
        rw [hab, (ih _).mpr hrest]

theorem emap_eq_map_of {α β : Type} {f : α → Except String β} {l : List α} {m : α → β}
    (h : ∀ a ∈ l, f a = .ok (m a)) : emap f l = .ok (l.map m) := by
  rw [emap_ok_iff]
  induction l with
  | nil => exact List.Forall₂.nil
  | cons a rest ih =>
    exact List.Forall₂.cons (h a (by simp))
      (ih (fun a ha => h a (List.mem_cons_of_mem _ ha)))

theorem emap_ok_length {α β : Type} {f : α → Except String β} {l : List α} {l' : List β}
    (h : emap f l = .ok l') : l'.length = l.length :=
  (((emap_ok_iff f l l').mp h).length_eq).symm

theorem emap_ok_id {α : Type} {f : α → Except String α} :
    ∀ {l : List α}, (∀ a ∈ l, f a = .ok a) → emap f l = .ok l := by
  intro l
  induction l with
  | nil => intro _; rfl
  | cons a rest ih =>
    intro h
    unfold emap
    rw [h a (by simp), ih (fun a ha => h a (List.mem_cons_of_mem _ ha))]

theorem emap_ok_getElem {α β : Type} {f : α → Except String β} {l : List α} {l' : List β}
    (h : emap f l = .ok l') (i : Nat) (hi : i < l.length) :
    ∃ hi' : i < l'.length, f (l.get ⟨i, hi⟩) = .ok (l'.get ⟨i, hi'⟩) := by
  have h2 := (emap_ok_iff f l l').mp h
  have hlen : l'.length = l.length := h2.length_eq.symm
  refine ⟨by omega, ?_⟩
  have := List.forall₂_iff_get.mp h2
  exact this.2 i hi (by omega)

theorem emap_ok_get? {α β : Type} {f : α → Except String β} {l : List α} {l' : List β}
    (h : emap f l = .ok l') {i : Nat} {a : α} {b : β}
    (ha : l.get? i = some a) (hb : l'.get? i = some b) : f a = .ok b := by
  rcases List.get?_eq_some.mp ha with ⟨hi, hja⟩
  rcases List.get?_eq_some.mp hb with ⟨hib, hjb⟩
  obtain ⟨hi', hfa⟩ := emap_ok_getElem h i hi
  rw [← hja, ← hjb]
  exact hfa

theorem emap_ok_mem_rev {α β : Type} {f : α → Except String β} {l : List α} {l' : List β}
    (h : emap f l = .ok l') {b : β} (hb : b ∈ l') : ∃ a ∈ l, f a = .ok b := by
  rcases List.mem_iff_get.mp hb with ⟨⟨i, hi⟩, hbi⟩
  have hlen : l'.length = l.length := emap_ok_length h
  have hil : i < l.length := by omega
  obtain ⟨hi', hf⟩ := emap_ok_getElem h i hil
  refine ⟨l.get ⟨i, hil⟩, List.get_mem l i hil, ?_⟩
  rw [hf]
  exact congrArg Except.ok hbi

theorem lookupLast_mem : ∀ {d : List (Int × Nat)} {k : Int} {v : Nat},
    lookupLast d k = some v → (k, v) ∈ d := by
  intro d
  induction d with
  | nil => intro k v h; simp [lookupLast] at h
  | cons p rest ih =>
    intro k v h
    unfold lookupLast at h
    cases hrest : lookupLast rest k with
    | some w =>
      rw [hrest] at h
      cases h
      exact List.mem_cons_of_mem _ (ih hrest)
    | none =>
      rw [hrest] at h
      by_cases hk : p.1 = k
      · rw [if_pos hk] at h
        cases h
        subst hk
        simp
      · rw [if_neg hk] at h
        cases h

theorem lookupLast_isSome_of_mem : ∀ {d : List (Int × Nat)} {k : Int} {v : Nat},
    (k, v) ∈ d → (lookupLast d k).isSome := by
  intro d
  induction d with
  | nil => intro k v h; cases h
  | cons p rest ih =>
    intro k v h
    unfold lookupLast
    cases hrest : lookupLast rest k with
    | some w => simp
    | none =>
      rcases List.mem_cons.mp h with h | h
      · subst h
        simp
      · have := ih h
        rw [hrest] at this
        simp at this

theorem lookupLast_eq_of_nodup : ∀ {d : List (Int × Nat)} {k : Int} {v : Nat},
    (d.map Prod.fst).Nodup → (k, v) ∈ d → lookupLast d k = some v := by
  intro d
  induction d with
  | nil => intro k v _ h; cases h
  | cons p rest ih =>
    intro k v hnd h
    have hnd' : (rest.map Prod.fst).Nodup := (List.nodup_cons.mp hnd).2
    have hp : p.1 ∉ rest.map Prod.fst := (List.nodup_cons.mp hnd).1
    unfold lookupLast
    rcases List.mem_cons.mp h with h | h
    · subst h
      cases hrest : lookupLast rest k with
      | some w =>
        have := lookupLast_mem hrest
        exact absurd (List.mem_map_of_mem Prod.fst this) hp
      | none => simp
    · rw [ih hnd' h]

/-- Keys present in the dict built from node ids always map below `n`. -/
theorem lookupLast_zip_range_lt {ids : List Int} {n : Nat} {k : Int} {v : Nat}
    (h : lookupLast (ids.zip (List.range n)) k = some v) : v < n := by
  have := (List.of_mem_zip (lookupLast_mem h)).2
  exact List.mem_range.mp this

/-- The dict built after a reindex maps every in-range id to itself. -/
theorem lookupLast_identity {n : Nat} {v : Nat} (h : v < n) :
    lookupLast ((rangeZ n).zip (List.range n)) (Int.ofNat v) = some v := by
  have hz : (rangeZ n).zip (List.range n) = (List.range n).map (fun i => (Int.ofNat i, i)) := by
    have := List.zip_map' Int.ofNat id (List.range n)
    simpa [rangeZ] using this
  rw [hz]
  apply lookupLast_eq_of_nodup
  · rw [List.map_map]
    refine List.Nodup.map ?_ (List.nodup_range _)
    intro a b hab
    simpa using hab
  · exact List.mem_map_of_mem _ (List.mem_range.mpr h)

/-- Every id present in the key list is found by the dict lookup, provided
the value range covers the key list. -/
theorem lookupLast_isSome_of_mem_keys {ids : List Int} {n : Nat} {k : Int}
    (hlen : ids.length ≤ n) (h : k ∈ ids) :
    (lookupLast (ids.zip (List.range n)) k).isSome := by
  rcases List.mem_iff_getElem.mp h with ⟨i, hi, hk⟩
  have hir : i < (List.range n).length := by simpa using (by omega : i < n)
  have hiz : i < (ids.zip (List.range n)).length := by
    simp only [List.length_zip]
    omega
  have hpair : (k, i) ∈ ids.zip (List.range n) := by
    have hg : (ids.zip (List.range n))[i] = (ids[i], (List.range n)[i]) :=
      List.getElem_zip
    rw [hk, List.getElem_range] at hg
    exact hg ▸ List.getElem_mem _
  exact lookupLast_isSome_of_mem hpair

theorem except_bind_ok {α β : Type} {x : Except String α} {f : α → Except String β} {b : β}
    (h : (x >>= f) = .ok b) : ∃ a, x = .ok a ∧ f a = .ok b := by
  cases x with
  | error e => exact absurd h (by simp [Bind.bind, Except.bind])
  | ok a => exact ⟨a, rfl, by simpa [Bind.bind, Except.bind] using h⟩

/-- A successful `reindex` only touches the node ids, the element ids and
the element table; every other attribute (including every cache) is kept,
and the id arrays become dense ranges. -/
theorem reindex_ok_fields {g g' : Geometry} (h : reindex g = .ok g') :
    g'._type = g._type ∧ g'._projstr = g._projstr ∧ g'._n_nodes = g._n_nodes ∧
    g'._n_elements = g._n_elements ∧ g'._nc = g._nc ∧ g'._ec = g._ec ∧
    g'._codes = g._codes ∧ g'._valid_codes = g._valid_codes ∧
    g'._top_elems = g._top_elems ∧ g'._n_layers_column = g._n_layers_column ∧
    g'._bot_elems = g._bot_elems ∧ g'._n_layers = g._n_layers ∧
    g'._n_sigma = g._n_sigma ∧
    g'._element_table_dotnet = g._element_table_dotnet ∧
    g'._node_ids = g._n_nodes.map rangeZ ∧
    g'._element_ids = g._n_elements.map rangeZ := by
  unfold reindex at h
  cases hnn : g._n_nodes with
  | none => rw [hnn] at h; dsimp only at h; simp at h
  | some nn =>
    cases hne : g._n_elements with
    | none => rw [hnn, hne] at h; dsimp only at h; simp at h
    | some ne =>
      rw [hnn, hne] at h
      dsimp only at h
      cases hids : g._node_ids with
      | none => rw [hids] at h; dsimp only at h; simp at h
      | some ids =>
        rw [hids] at h
        dsimp only at h
        cases htbl : g._element_table with
        | none =>
          rw [htbl] at h
          dsimp only at h
          by_cases h0 : ne = 0
          · rw [if_pos h0] at h
            simp only [Except.ok.injEq] at h
            subst h
            simp [hnn, hne]
          · rw [if_neg h0] at h
            simp at h
        | some tbl =>
          rw [htbl] at h
          dsimp only at h
          cases hem : emap (fun row => emap (fun r =>
              match lookupLast (ids.zip (List.range nn)) r with
              | some v => Except.ok (Int.ofNat v)
              | none => Except.error "KeyError") row) (tbl.take ne) with
          | error e => rw [hem] at h; simp at h
          | ok rw' =>
            rw [hem] at h
            dsimp only at h
            by_cases hle : ne ≤ tbl.length
            · rw [if_pos hle] at h
              simp only [Except.ok.injEq] at h
              subst h
              simp [hnn, hne]
            · rw [if_neg hle] at h
              simp at h

/-- After a successful `reindex` of a geometry whose element table covers
exactly `n_elements` rows, every node reference of the resulting table is a
non-negative index below the (unchanged) node count. -/
theorem reindex_ok_refs {g g' : Geometry} {tbl : List (List Int)} {nn : Nat}
    (htbl : g._element_table = some tbl) (hnn : g._n_nodes = some nn)
    (hne : g._n_elements = some tbl.length)
    (h : reindex g = .ok g') :
    ∃ tbl', g'._element_table = some tbl' ∧
      ∀ row ∈ tbl', ∀ r ∈ row, 0 ≤ r ∧ r < (nn : Int) := by
  unfold reindex at h
  rw [hnn, hne] at h
  dsimp only at h
  cases hids : g._node_ids with
  | none => rw [hids] at h; dsimp only at h; simp at h
  | some ids =>
    rw [hids] at h
    dsimp only at h
    rw [htbl] at h
    dsimp only at h
    rw [List.take_length] at h
    cases hem : emap (fun row => emap (fun r =>
        match lookupLast (ids.zip (List.range nn)) r with
        | some v => Except.ok (Int.ofNat v)
        | none => Except.error "KeyError") row) tbl with
    | error e => rw [hem] at h; simp at h
    | ok rw' =>
      rw [hem] at h
      dsimp only at h
      rw [if_pos (le_refl tbl.length)] at h
      simp only [Except.ok.injEq] at h
      subst h
      refine ⟨rw' ++ tbl.drop tbl.length, by simp, ?_⟩
      rw [List.drop_length, List.append_nil]
      intro row hrow r hr
      obtain ⟨row0, _, hrow0⟩ := emap_ok_mem_rev hem hrow
      obtain ⟨r0, _, hr0⟩ := emap_ok_mem_rev hrow0 hr
      cases hlk : lookupLast (ids.zip (List.range nn)) r0 with
      | none => rw [hlk] at hr0; cases hr0
      | some v =>
        rw [hlk] at hr0
        cases hr0
        have hv := lookupLast_zip_range_lt hlk
        exact ⟨Int.ofNat_nonneg v, Int.ofNat_lt.mpr hv⟩

/-- C1: for every geometry whose id arrays are consistent (node ids of
length `n_nodes` and pairwise distinct, an element table of exactly
`n_elements` rows, every node reference a known node id), `reindex()`
renumbers the node ids to exactly 0 .. n_nodes-1 and the element ids to
exactly 0 .. n_elements-1 in that (original relative) order, rewriting
every element's node references through the old-id-to-new-id dictionary;
and a second `reindex()` returns exactly the same geometry (idempotence). -/
theorem C1_reindex_dense_idempotent
    (g g' : Geometry) (nn ne : Nat) (ids : List Int) (tbl : List (List Int))
    (hnn : g._n_nodes = some nn) (hne : g._n_elements = some ne)
    (hids : g._node_ids = some ids) (htbl : g._element_table = some tbl)
    (hlen : ids.length = nn) (htlen : tbl.length = ne)
    (hrefs : ∀ row ∈ tbl, ∀ r ∈ row, r ∈ ids)
    (hg' : g' = { g with _element_table := some (tbl.map (rewriteRow ids nn)),
                         _node_ids := some (rangeZ nn),
                         _element_ids := some (rangeZ ne) }) :
    reindex g = .ok g' ∧ reindex g' = .ok g' := by
  subst hg'
  have hlk : ∀ row ∈ tbl, ∀ r ∈ row,
      ∃ v, lookupLast (ids.zip (List.range nn)) r = some v := by
    intro row hrow r hr
    have := lookupLast_isSome_of_mem_keys (n := nn) (le_of_eq hlen) (hrefs row hrow r hr)
    exact Option.isSome_iff_exists.mp this
  have hinner : ∀ row ∈ tbl,
      emap (fun r =>
        match lookupLast (ids.zip (List.range nn)) r with
        | some v => Except.ok (Int.ofNat v)
        | none => Except.error "KeyError") row = .ok (rewriteRow ids nn row) := by
    intro row hrow
    apply emap_eq_map_of
    intro r hr
    obtain ⟨v, hv⟩ := hlk row hrow r hr
    rw [hv]
    simp [hv]
  have houter : emap (fun row => emap (fun r =>
      match lookupLast (ids.zip (List.range nn)) r with
      | some v => Except.ok (Int.ofNat v)
      | none => Except.error "KeyError") row) tbl = .ok (tbl.map (rewriteRow ids nn)) :=
    emap_eq_map_of hinner
  have htake : tbl.take ne = tbl := by rw [← htlen]; simp
  have hdrop : tbl.drop ne = [] := by rw [← htlen]; simp
  have hfirst : reindex g = .ok { g with
      _element_table := some (tbl.map (rewriteRow ids nn)),
      _node_ids := some (rangeZ nn), _element_ids := some (rangeZ ne) } := by
    unfold reindex
    rw [hnn, hne]
    dsimp only
    rw [hids]
    dsimp only
    rw [htbl]
    dsimp only
    rw [htake, houter]
    dsimp only
    rw [if_pos (htlen ▸ le_refl ne), hdrop, List.append_nil]
  refine ⟨hfirst, ?_⟩
  -- second call: the dictionary is now the identity on 0 .. nn-1 and every
  -- table entry already lies in that range
  have hinner2 : ∀ row' ∈ tbl.map (rewriteRow ids nn),
      emap (fun r =>
        match lookupLast ((rangeZ nn).zip (List.range nn)) r with
        | some v => Except.ok (Int.ofNat v)
        | none => Except.error "KeyError") row' = .ok row' := by
    intro row' hrow'
    obtain ⟨row, hrow, hrr⟩ := List.mem_map.mp hrow'
    apply emap_ok_id
    intro e he
    rw [← hrr] at he
    obtain ⟨r, hr, hre⟩ := List.mem_map.mp he
    obtain ⟨v, hv⟩ := hlk row hrow r hr
    have hvlt : v < nn := lookupLast_zip_range_lt hv
    have he2 : e = Int.ofNat v := by rw [← hre, hv]; rfl
    subst he2
    rw [lookupLast_identity hvlt]
  have houter2 : emap (fun row => emap (fun r =>
      match lookupLast ((rangeZ nn).zip (List.range nn)) r with
      | some v => Except.ok (Int.ofNat v)
      | none => Except.error "KeyError") row) (tbl.map (rewriteRow ids nn))
      = .ok (tbl.map (rewriteRow ids nn)) :=
    emap_ok_id hinner2
  have hlen2 : (tbl.map (rewriteRow ids nn)).length = ne := by simp [htlen]
  have htake2 : (tbl.map (rewriteRow ids nn)).take ne = tbl.map (rewriteRow ids nn) := by
    rw [← hlen2]; simp
  have hdrop2 : (tbl.map (rewriteRow ids nn)).drop ne = [] := by
    rw [← hlen2]; simp
  unfold reindex
  dsimp only
  rw [hnn, hne]
  dsimp only
  rw [htake2, houter2]
  dsimp only
  rw [if_pos (le_of_eq hlen2.symm), hdrop2, List.append_nil]

theorem ok_bind {α β : Type} (a : α) (f : α → Except String β) :
    (Except.ok (ε := String) a >>= f) = f a := rfl

theorem set_nodes_n_nodes (g : Geometry) (coords : List Q3) (cs : List Int)
    (ids : Option (List Int)) (p : Option String) :
    (set_nodes g coords (some cs) ids p)._n_nodes = some cs.length := rfl

theorem set_elements_fields (g : Geometry) (tbl : List (List Int))
    (ids : Option (List Int)) (t : Option Int) :
    (set_elements g tbl ids t)._element_table = some tbl ∧
    (set_elements g tbl ids t)._n_elements = some tbl.length ∧
    (set_elements g tbl ids t)._n_nodes = g._n_nodes ∧
    (set_elements g tbl ids t)._valid_codes = g._valid_codes ∧
    (set_elements g tbl ids t)._ec = g._ec := by
  unfold set_elements
  cases t <;> simp

/-- Conversion between the Boolean reference check and its propositional
form. -/
theorem refsResolveB_iff (g : Geometry) (tbl : List (List Int)) (nn : Nat)
    (htbl : g._element_table = some tbl) (hnn : g._n_nodes = some nn) :
    refsResolveB g = true ↔ ∀ row ∈ tbl, ∀ r ∈ row, 0 ≤ r ∧ r < (nn : Int) := by
  unfold refsResolveB
  rw [htbl, hnn]
  simp only [List.all_eq_true, Bool.and_eq_true, decide_eq_true_eq]

/-- C3: the geometry built by `elements_to_geometry`, and the geometry
built by `to_2d_geometry` on a layered geometry, always satisfy the
resolution invariant: every node id referenced in the new element table is
a valid index of (hence an existing node of) the new geometry. This holds
for every successful call, with no assumption on the source geometry,
because `reindex` rewrites every reference through the id dictionary whose
values lie below the new node count. -/
theorem C3_subset_refs_resolve :
    (∀ (g : Geometry) (elems : List Int) (nl : Option String) (g' : Geometry),
        elements_to_geometry g elems nl = .ok g' → refsResolveB g' = true) ∧
    (∀ (g g' : Geometry), to_2d_geometry g = .ok (some g') → refsResolveB g' = true) := by
  constructor
  · intro g elems nl g' h
    unfold elements_to_geometry at h
    obtain ⟨pair, h1, h⟩ := except_bind_ok h
    obtain ⟨nc, h2, h⟩ := except_bind_ok h
    obtain ⟨node_coords, h3, h⟩ := except_bind_ok h
    obtain ⟨cs, h4, h⟩ := except_bind_ok h
    obtain ⟨codes, h5, h⟩ := except_bind_ok h
    obtain ⟨eids, h6, h⟩ := except_bind_ok h
    obtain ⟨subIds, h7, h⟩ := except_bind_ok h
    dsimp only at h
    obtain ⟨t, h8, h⟩ := except_bind_ok h
    have hf2 := set_elements_fields
      (set_nodes emptyGeometry node_coords (some codes) (some pair.1) g._projstr)
      pair.2 (some subIds) none
    have hnodes := set_nodes_n_nodes emptyGeometry node_coords codes (some pair.1) g._projstr
    have hmain : ∀ g4 : Geometry, g4._element_table = some pair.2 →
        g4._n_elements = some pair.2.length → g4._n_nodes = some codes.length →
        reindex g4 = .ok g' → refsResolveB g' = true := by
      intro g4 htb hne hnn hre
      obtain ⟨tbl', htbl', hbound⟩ := reindex_ok_refs htb hnn hne hre
      have hfields := reindex_ok_fields hre
      have hnn' : g'._n_nodes = some codes.length := by
        rw [hfields.2.2.1, hnn]
      exact (refsResolveB_iff g' tbl' codes.length htbl' hnn').mpr hbound
    by_cases ht : 0 < t
    · rw [if_pos ht] at h
      obtain ⟨tops, h10, h⟩ := except_bind_ok h
      obtain ⟨subTops, h11, h⟩ := except_bind_ok h
      obtain ⟨g4, h9, h⟩ := except_bind_ok h
      have hg4 : ({ set_elements
          (set_nodes emptyGeometry node_coords (some codes) (some pair.1) g._projstr)
          pair.2 (some subIds) none with
            _type := g._type, _top_elems := some subTops,
            _n_layers := g._n_layers, _n_sigma := g._n_sigma } : Geometry) = g4 := by
        simpa [pure, Except.pure] using h9
      refine hmain g4 ?_ ?_ ?_ h
      · rw [← hg4]; exact hf2.1
      · rw [← hg4]; exact hf2.2.1
      · rw [← hg4]; exact hf2.2.2.1.trans hnodes
    · rw [if_neg ht] at h
      obtain ⟨g4, h9, h⟩ := except_bind_ok h
      have hg4 : ({ set_elements
          (set_nodes emptyGeometry node_coords (some codes) (some pair.1) g._projstr)
          pair.2 (some subIds) none with _type := g._type } : Geometry) = g4 := by
        simpa [pure, Except.pure] using h9
      refine hmain g4 ?_ ?_ ?_ h
      · rw [← hg4]; exact hf2.1
      · rw [← hg4]; exact hf2.2.1
      · rw [← hg4]; exact hf2.2.2.1.trans hnodes
  · intro g g' h
    unfold to_2d_geometry at h
    cases hL : g._n_layers with
    | none => rw [hL] at h; dsimp only at h; simp at h
    | some nLay =>
      rw [hL] at h
      dsimp only at h
      obtain ⟨elemsO, h1, h⟩ := except_bind_ok h
      obtain ⟨elem_ids, h2, h⟩ := except_bind_ok h
      obtain ⟨pair, h3, h⟩ := except_bind_ok h
      obtain ⟨nc, h4, h⟩ := except_bind_ok h
      obtain ⟨node_coords, h5, h⟩ := except_bind_ok h
      obtain ⟨cs, h6, h⟩ := except_bind_ok h
      obtain ⟨codes, h7, h⟩ := except_bind_ok h
      obtain ⟨eids, h8, h⟩ := except_bind_ok h
      obtain ⟨subIds, h9, h⟩ := except_bind_ok h
      obtain ⟨g'', hre, hfin⟩ := except_bind_ok h
      have hg'' : g'' = g' := by
        simpa using hfin
      subst hg''
      set g1 := set_nodes emptyGeometry node_coords (some codes) (some pair.1) g._projstr with hg1
      have hf2 := set_elements_fields g1 pair.2 (some subIds) none
      have htb : ({ set_elements g1 pair.2 (some subIds) none with
          _type := some (-1) } : Geometry)._element_table = some pair.2 := hf2.1
      have hne : ({ set_elements g1 pair.2 (some subIds) none with
          _type := some (-1) } : Geometry)._n_elements = some pair.2.length := hf2.2.1
      have hnn : ({ set_elements g1 pair.2 (some subIds) none with
          _type := some (-1) } : Geometry)._n_nodes = some codes.length := by
        have := hf2.2.2.1
        calc ({ set_elements g1 pair.2 (some subIds) none with
            _type := some (-1) } : Geometry)._n_nodes
            = (set_elements g1 pair.2 (some subIds) none)._n_nodes := rfl
          _ = g1._n_nodes := this
          _ = some codes.length :=
              set_nodes_n_nodes emptyGeometry node_coords codes (some pair.1) g._projstr
      obtain ⟨tbl', htbl', hbound⟩ := reindex_ok_refs htb hnn hne hre
      have hfields := reindex_ok_fields hre
      have hnn' : g''._n_nodes = some codes.length := by
        rw [hfields.2.2.1]
        exact hnn
      exact (refsResolveB_iff g'' tbl' codes.length htbl' hnn').mpr hbound

/-- C3 witness: on the concrete prism column, the invariant holds before
the call, and both subsetting operations succeed and preserve it. -/
theorem C3_subset_refs_resolve_witness :
    refsResolveB c3Geom = true ∧
    elements_to_geometry c3Geom [0] (some "all") = .ok c3Res ∧
    refsResolveB c3Res = true ∧
    to_2d_geometry c3Geom = .ok (some c4Res) ∧
    refsResolveB c4Res = true :=
  ⟨by decide, by decide,
   C3_subset_refs_resolve.1 c3Geom [0] (some "all") c3Res (by decide),
   by decide,
   C3_subset_refs_resolve.2 c3Geom c4Res (by decide)⟩

theorem gatherRows_len {tbl : List (List Int)} {ids : List Int}
    {pair : List Int × List (List Int)}
    (h : gatherRows tbl ids = .ok pair) : pair.2.length = ids.length := by
  unfold gatherRows at h
  cases hem : emap (fun j => pyIdx tbl j) ids with
  | error e => rw [hem] at h; cases h
  | ok rows =>
    rw [hem] at h
    simp only [Except.ok.injEq] at h
    rw [← h]
    exact emap_ok_length hem

theorem gatherRowsHalved_len {tbl : List (List Int)} {ids : List Int} {nl : Option String}
    {pair : List Int × List (List Int)}
    (h : gatherRowsHalved tbl ids nl = .ok pair) : pair.2.length = ids.length := by
  unfold gatherRowsHalved at h
  cases hem : emap (fun j =>
      match pyIdx tbl j with
      | .error e => .error e
      | .ok row =>
        Except.ok (if nl = some "bottom" then row.take (row.length / 2)
             else row.drop (row.length / 2))) ids with
  | error e => rw [hem] at h; cases h
  | ok rows =>
    rw [hem] at h
    simp only [Except.ok.injEq] at h
    rw [← h]
    exact emap_ok_length hem

/-- The filtered element table returned by the gathering primitive has one
row per requested element. -/
theorem get_nodes_table_len {g : Geometry} {l : List Int} {nl : Option String}
    {pair : List Int × List (List Int)}
    (h : get_nodes_and_table_for_elements g l nl = .ok pair) : pair.2.length = l.length := by
  unfold get_nodes_and_table_for_elements at h
  split at h
  · cases he : element_table_val g with
    | none => rw [he] at h; cases h
    | some tbl => rw [he] at h; exact gatherRows_len h
  · cases ht : g._type with
    | none => rw [ht] at h; cases h
    | some t =>
      rw [ht] at h
      dsimp only at h
      split at h
      · cases he : element_table_val g with
        | none => rw [he] at h; cases h
        | some tbl => rw [he] at h; exact gatherRows_len h
      · split at h
        · cases h
        · cases he : element_table_val g with
          | none => rw [he] at h; cases h
          | some tbl => rw [he] at h; exact gatherRowsHalved_len h

/-- Computation of the `top_element_ids` value on a layered geometry with a
warm top-element cache. -/
theorem top_val_warm {g : Geometry} {nLay : Nat} {tops : List Int}
    (hL : g._n_layers = some nLay) (hT : g._top_elems = some tops) :
    top_element_ids_val g = .ok (some tops) := by
  unfold top_element_ids_val
  rw [hL]
  dsimp only
  rw [hT]

/-- Computation of `num_layers_per_column` on a layered geometry with a
cold cache: the forward-difference array, one entry per column. -/
theorem numl_cold {g : Geometry} {nLay : Nat} {t0 : Int} {rest : List Int}
    (hL : g._n_layers = some nLay) (hNC : g._n_layers_column = none)
    (hT : g._top_elems = some (t0 :: rest)) :
    num_layers_per_column_val g
      = .ok (some ((t0 + 1) :: (rest.zip (t0 :: rest)).map (fun p => p.1 - p.2))) := by
  unfold num_layers_per_column_val
  rw [hL]
  dsimp only
  rw [hNC]
  dsimp only
  rw [top_val_warm hL hT]
  rw [ok_bind]

/-- Computation of `bottom_element_ids` on a layered geometry with cold
caches: one bottom element per column. -/
theorem bottom_val_cold {g : Geometry} {nLay : Nat} {tops : List Int}
    (hL : g._n_layers = some nLay) (hB : g._bot_elems = none)
    (hNC : g._n_layers_column = none) (hT : g._top_elems = some tops)
    (hne : tops ≠ []) :
    ∃ bots : List Int, bottom_element_ids_val g = .ok (some bots) ∧
      bots.length = tops.length := by
  cases tops with
  | nil => exact absurd rfl hne
  | cons t0 rest =>
    have hnum := numl_cold hL hNC hT
    have hlen : ((t0 + 1) :: (rest.zip (t0 :: rest)).map (fun p => p.1 - p.2)).length
        = (t0 :: rest).length := by
      simp [List.length_zip]
    refine ⟨((t0 :: rest).zip ((t0 + 1) :: (rest.zip (t0 :: rest)).map
      (fun p => p.1 - p.2))).map (fun p => p.1 - p.2 + 1), ?_, ?_⟩
    · unfold bottom_element_ids_val
      rw [hL]
      dsimp only
      rw [hB]
      dsimp only
      rw [top_val_warm hL hT, ok_bind, hnum, ok_bind]
      dsimp only
      rw [if_pos hlen.symm]
    · rw [List.length_map, List.length_zip, hlen]
      simp

theorem error_bind {α β : Type} (e : String) (f : α → Except String β) :
    (Except.error (α := α) e >>= f) = .error e := rfl

/-- On a layered geometry with no columns at all, the forward-difference
computation raises (`tmp[0]` on an empty array). -/
theorem numl_nil {g : Geometry} {nLay : Nat}
    (hL : g._n_layers = some nLay) (hNC : g._n_layers_column = none)
    (hT : g._top_elems = some []) :
    num_layers_per_column_val g = .error "IndexError" := by
  unfold num_layers_per_column_val
  rw [hL]
  dsimp only
  rw [hNC]
  dsimp only
  rw [top_val_warm hL hT, ok_bind]

/-- Inversion of a successful `bottom_element_ids` value on a layered
geometry with cold caches: there is one bottom element per column. -/
theorem bottom_val_inv {g : Geometry} {nLay : Nat} {tops : List Int}
    {elemsO : Option (List Int)}
    (hL : g._n_layers = some nLay) (hB : g._bot_elems = none)
    (hNC : g._n_layers_column = none) (hT : g._top_elems = some tops)
    (h1 : bottom_element_ids_val g = .ok elemsO) :
    ∃ bots : List Int, elemsO = some bots ∧ bots.length = tops.length := by
  cases htops : tops with
  | nil =>
    subst htops
    unfold bottom_element_ids_val at h1
    rw [hL] at h1
    dsimp only at h1
    rw [hB] at h1
    dsimp only at h1
    rw [top_val_warm hL hT, ok_bind, numl_nil hL hNC hT, error_bind] at h1
    cases h1
  | cons t0 rest =>
    subst htops
    obtain ⟨bots, hbv, hblen⟩ := bottom_val_cold hL hB hNC hT (by simp)
    rw [hbv] at h1
    simp only [Except.ok.injEq] at h1
    exact ⟨bots, h1.symm, hblen⟩

/-- C4: for every layered geometry (with its per-column caches cold, as
after construction), a successful `to_2d_geometry()` produces a geometry
tagged with type -1 (Mesh) that carries no layer metadata at all, and whose
element count is exactly the number of vertical columns, i.e. the length of
`top_element_ids`. -/
theorem C4_to_2d_mesh (g g' : Geometry) (tops : List Int)
    (hT : g._top_elems = some tops) (hB : g._bot_elems = none)
    (hNC : g._n_layers_column = none)
    (h : to_2d_geometry g = .ok (some g')) :
    g'._type = some (-1) ∧ g'._n_layers = none ∧ g'._n_sigma = none ∧
    g'._top_elems = none ∧ g'._n_layers_column = none ∧ g'._bot_elems = none ∧
    g'._n_elements = some tops.length := by
  unfold to_2d_geometry at h
  cases hL : g._n_layers with
  | none => rw [hL] at h; dsimp only at h; simp at h
  | some nLay =>
    rw [hL] at h
    dsimp only at h
    obtain ⟨elemsO, h1, h⟩ := except_bind_ok h
    obtain ⟨elem_ids, h2, h⟩ := except_bind_ok h
    obtain ⟨pair, h3, h⟩ := except_bind_ok h
    obtain ⟨nc, h4, h⟩ := except_bind_ok h
    obtain ⟨node_coords, h5, h⟩ := except_bind_ok h
    obtain ⟨cs, h6, h⟩ := except_bind_ok h
    obtain ⟨codes, h7, h⟩ := except_bind_ok h
    obtain ⟨eids, h8, h⟩ := except_bind_ok h
    obtain ⟨subIds, h9, h⟩ := except_bind_ok h
    obtain ⟨g'', hre, hfin⟩ := except_bind_ok h
    have hg'' : g'' = g' := by simpa using hfin
    subst hg''
    obtain ⟨bots, hbots, hblen⟩ := bottom_val_inv hL hB hNC hT h1
    have helem : elem_ids = bots := by
      rw [hbots] at h2
      simpa [orTypeError] using h2.symm
    have hplen : pair.2.length = tops.length := by
      rw [get_nodes_table_len h3, helem, hblen]
    obtain ⟨f1, f2, f3, f4, f5, f6, f7, f8, f9, f10, f11, f12, f13, f14, f15, f16⟩ :=
      reindex_ok_fields hre
    have hne' : g''._n_elements = some pair.2.length := f4.trans rfl
    rw [hplen] at hne'
    exact ⟨f1.trans rfl, f12.trans rfl, f13.trans rfl, f9.trans rfl, f10.trans rfl,
      f11.trans rfl, hne'⟩

/-- C4 witness: the concrete prism column collapses to a one-element Mesh
footprint with no layer metadata. -/
theorem C4_to_2d_mesh_witness :
    to_2d_geometry c3Geom = .ok (some c4Res) ∧
    (c4Res._type = some (-1) ∧ c4Res._n_layers = none ∧ c4Res._n_sigma = none ∧
     c4Res._top_elems = none ∧ c4Res._n_layers_column = none ∧ c4Res._bot_elems = none ∧
     c4Res._n_elements = some 1) :=
  ⟨by decide, C4_to_2d_mesh c3Geom c4Res [1] rfl rfl rfl (by decide)⟩

/-- C2x helper: computing `get_element_ids_layer_n` on a layered geometry
with cached top elements for a non-positive layer number inside the sigma
range. -/
theorem get_layer_nonpos (g : Geometry) (nLay nSig : Nat) (tops : List Int) (m : Int)
    (hL : g._n_layers = some nLay) (hS : g._n_sigma = some nSig) (hSle : nSig ≤ nLay)
    (hT : g._top_elems = some tops)
    (hlow : -(nSig : Int) < m) (hhigh : m ≤ 0) :
    get_element_ids_layer_n g m = .ok (some (tops.map (fun e => e + m))) := by
  have hcast : (nSig : Int) ≤ (nLay : Int) := by exact_mod_cast hSle
  unfold get_element_ids_layer_n top_element_ids_val orTypeError
  rw [hL, hS, hT]
  dsimp only [Bind.bind, Except.bind]
  rw [if_neg (by omega : ¬((nLay : Int) - (nSig : Int) < m ∧ m ≤ (nLay : Int)))]
  rw [if_neg (by omega : ¬(m < -(nLay : Int) ∨ (nLay : Int) < m))]
  rw [if_pos hhigh, if_neg (by omega : ¬ m < -(nSig : Int))]

/-- C2: for every layered geometry with `n_layers` total layers, `n_sigma`
sigma layers (so `n_z = n_layers - n_sigma` z-layers) and cached top
element ids, and every layer number `n` with `n_z < n ≤ n_layers`,
`get_element_ids_layer_n(n)` returns exactly what
`get_element_ids_layer_n(n - n_layers)` returns: the folded negative form,
namely `top_element_ids + (n - n_layers)` over all columns (every column
carries the full sigma stack, so the sigma restriction excludes none). -/
theorem C2_layer_fold (g : Geometry) (nLay nSig : Nat) (tops : List Int) (n : Int)
    (hL : g._n_layers = some nLay) (hS : g._n_sigma = some nSig) (hSle : nSig ≤ nLay)
    (hT : g._top_elems = some tops)
    (hlow : (nLay : Int) - (nSig : Int) < n) (hhigh : n ≤ (nLay : Int)) :
    get_element_ids_layer_n g n = .ok (some (tops.map (fun e => e + (n - (nLay : Int))))) ∧
    get_element_ids_layer_n g n = get_element_ids_layer_n g (n - (nLay : Int)) := by
  have hcast : (nSig : Int) ≤ (nLay : Int) := by exact_mod_cast hSle
  have hfolded : get_element_ids_layer_n g (n - (nLay : Int))
      = .ok (some (tops.map (fun e => e + (n - (nLay : Int))))) :=
    get_layer_nonpos g nLay nSig tops (n - (nLay : Int)) hL hS hSle hT
      (by omega) (by omega)
  have hdirect : get_element_ids_layer_n g n
      = .ok (some (tops.map (fun e => e + (n - (nLay : Int))))) := by
    unfold get_element_ids_layer_n top_element_ids_val orTypeError
    rw [hL, hS, hT]
    dsimp only [Bind.bind, Except.bind]
    rw [if_pos (⟨hlow, hhigh⟩ : (nLay : Int) - (nSig : Int) < n ∧ n ≤ (nLay : Int))]
    rw [if_neg (by omega : ¬(n - (nLay : Int) < -(nLay : Int) ∨ (nLay : Int) < n - (nLay : Int)))]
    rw [if_pos (by omega : n - (nLay : Int) ≤ 0)]
    rw [if_neg (by omega : ¬ n - (nLay : Int) < -(nSig : Int))]
  exact ⟨hdirect, hdirect.trans hfolded.symm⟩

/-- C2 witness: 3 layers of which 2 sigma, two columns topped by elements 2
and 5; layer 2 lies above `n_z = 1` and folds to layer -1. -/
theorem C2_layer_fold_witness :
    get_element_ids_layer_n c2Geom 2 = .ok (some [1, 4]) ∧
    get_element_ids_layer_n c2Geom 2 = get_element_ids_layer_n c2Geom (2 - 3) := by
  have h := C2_layer_fold c2Geom 3 2 [2, 5] 2 rfl rfl (by decide) rfl
    (by decide) (by decide)
  refine ⟨?_, h.2⟩
  rw [h.1]
  decide

/-- C1 witness: a concrete 2-node, 1-element geometry with permuted node
ids; both conjuncts evaluated at it. -/
theorem C1_reindex_dense_idempotent_witness :
    reindex c1Geom = .ok c1Geom' ∧ reindex c1Geom' = .ok c1Geom' :=
  C1_reindex_dense_idempotent c1Geom c1Geom' 2 1 [1, 0] [[0, 1, 1]]
    rfl rfl rfl rfl (by decide) (by decide)
    (by decide) (by decide)

/-- On a non-geographic projection, the per-element computation of
`get_element_area` for a 3-corner element is exactly the fan's first
triangle term. -/
theorem elemAreaCalc_tri (cosd : ℚ → ℚ) (piF : ℚ) (pa pb pc : ℚ × ℚ) :
    elemAreaCalc false cosd piF [pa, pb, pc] =
      |(1 / 2 : ℚ) * ((pb.1 - pa.1) * (pc.2 - pa.2) - (pb.2 - pa.2) * (pc.1 - pa.1)) + 0| :=
  rfl

/-- On a non-geographic projection, the per-element computation of
`get_element_area` for a 4-corner element is the summed two-triangle fan. -/
theorem elemAreaCalc_quad (cosd : ℚ → ℚ) (piF : ℚ) (pa pb pc pd : ℚ × ℚ) :
    elemAreaCalc false cosd piF [pa, pb, pc, pd] =
      |(1 / 2 : ℚ) * ((pb.1 - pa.1) * (pc.2 - pa.2) - (pb.2 - pa.2) * (pc.1 - pa.1)) +
       (1 / 2 : ℚ) * ((pc.1 - pa.1) * (pd.2 - pa.2) - (pc.2 - pa.2) * (pd.1 - pa.1))| :=
  rfl

theorem elemAreaCalc_nonneg (geo : Bool) (cosd : ℚ → ℚ) (piF : ℚ) (ps : List (ℚ × ℚ)) :
    0 ≤ elemAreaCalc geo cosd piF ps := by
  unfold elemAreaCalc
  exact abs_nonneg _

theorem fetchXY_length {src : DotnetSource} {nodes : List Int} {ps : List (ℚ × ℚ)}
    (h : fetchXY src nodes = .ok ps) : ps.length = nodes.length :=
  emap_ok_length h

/-- C5: on a non-geographic projection `get_element_area` computes each
3-node element's area as the absolute value of half the cross product of
the edge vectors ab and ac, and each 4-node element's as the absolute
value of the summed triangle fan (half ab x ac plus half ac x ad); the
3-4 right triangle evaluates to exactly 6, the unit square to exactly 1,
and every returned area is non-negative. -/
theorem C5_element_area :
    (∀ (g : Geometry) (src : DotnetSource) (cosd : ℚ → ℚ) (piF : ℚ) (areas : List ℚ),
      is_geo g = false → get_element_area g src cosd piF = .ok areas →
      ∀ (j : Nat) (nodes : List Int) (a : ℚ), src.elementTable.get? j = some nodes →
        areas.get? j = some a →
        (∀ pa pb pc : ℚ × ℚ, fetchXY src nodes = .ok [pa, pb, pc] →
          a = specTriangleArea pa pb pc) ∧
        (∀ pa pb pc pd : ℚ × ℚ, fetchXY src nodes = .ok [pa, pb, pc, pd] →
          a = specQuadArea pa pb pc pd)) ∧
    (∀ (cosd : ℚ → ℚ) (piF : ℚ),
      get_element_area planarGeom triSource cosd piF = .ok [6]) ∧
    (∀ (cosd : ℚ → ℚ) (piF : ℚ),
      get_element_area planarGeom squareSource cosd piF = .ok [1]) ∧
    (∀ (g : Geometry) (src : DotnetSource) (cosd : ℚ → ℚ) (piF : ℚ) (areas : List ℚ),
      get_element_area g src cosd piF = .ok areas → ∀ a ∈ areas, 0 ≤ a) := by
  have harea : ∀ (g : Geometry) (src : DotnetSource) (cosd : ℚ → ℚ) (piF : ℚ)
      (nodes : List Int) (a : ℚ),
      (fun nodes =>
        if 8 < nodes.length then (Except.error "IndexError" : Except String ℚ)
        else if nodes.length < 3 then .error "UninitializedBuffer"
        else do
          let ps ← fetchXY src nodes
          .ok (elemAreaCalc (is_geo g) cosd piF ps)) nodes = .ok a →
      ∃ ps, fetchXY src nodes = .ok ps ∧ a = elemAreaCalc (is_geo g) cosd piF ps := by
    intro g src cosd piF nodes a hf
    dsimp only at hf
    split at hf
    · cases hf
    · split at hf
      · cases hf
      · obtain ⟨ps, hps, hok⟩ := except_bind_ok hf
        refine ⟨ps, hps, ?_⟩
        simpa using hok.symm
  refine ⟨?_, ?_, ?_, ?_⟩
  · intro g src cosd piF areas hgeo h j nodes a hj ha
    unfold get_element_area at h
    have hfa := emap_ok_get? h hj ha
    obtain ⟨ps, hps, haps⟩ := harea g src cosd piF nodes a hfa
    constructor
    · intro pa pb pc hfetch
      rw [hfetch] at hps
      cases hps
      rw [haps, hgeo, elemAreaCalc_tri]
      unfold specTriangleArea
      congr 1
      ring
    · intro pa pb pc pd hfetch
      rw [hfetch] at hps
      cases hps
      rw [haps, hgeo, elemAreaCalc_quad]
      unfold specQuadArea
      congr 1
      ring
  · intro cosd piF
    have hf : fetchXY triSource [1, 2, 3] = .ok [(0, 0), (3, 0), (0, 4)] := by decide
    have hgeo : is_geo planarGeom = false := by decide
    unfold get_element_area
    show emap _ [[1, 2, 3]] = .ok [6]
    refine @emap_eq_map_of _ _ _ _ (fun _ => (6 : ℚ)) ?_
    intro nodes hn
    have hn2 : nodes = [1, 2, 3] := by simpa using hn
    subst hn2
    dsimp only
    rw [if_neg (by decide), if_neg (by decide), hf, ok_bind, hgeo, elemAreaCalc_tri]
    norm_num
  · intro cosd piF
    have hf : fetchXY squareSource [1, 2, 3, 4]
        = .ok [(0, 0), (1, 0), (1, 1), (0, 1)] := by decide
    have hgeo : is_geo planarGeom = false := by decide
    unfold get_element_area
    show emap _ [[1, 2, 3, 4]] = .ok [1]
    refine @emap_eq_map_of _ _ _ _ (fun _ => (1 : ℚ)) ?_
    intro nodes hn
    have hn2 : nodes = [1, 2, 3, 4] := by simpa using hn
    subst hn2
    dsimp only
    rw [if_neg (by decide), if_neg (by decide), hf, ok_bind, hgeo, elemAreaCalc_quad]
    norm_num
  · intro g src cosd piF areas h a ha
    unfold get_element_area at h
    obtain ⟨nodes, _, hfa⟩ := emap_ok_mem_rev h ha
    obtain ⟨ps, _, haps⟩ := harea g src cosd piF nodes a hfa
    rw [haps]
    exact elemAreaCalc_nonneg _ _ _ _

/-- C5 witness: the general conjuncts instantiated at the concrete 3-4-5
triangle, together with the two exact evaluations. -/
theorem C5_element_area_witness :
    get_element_area planarGeom triSource czero 0 = .ok [6] ∧
    get_element_area planarGeom squareSource czero 0 = .ok [1] ∧
    (6 : ℚ) = specTriangleArea (0, 0) (3, 0) (0, 4) ∧
    (0 : ℚ) ≤ 6 := by
  refine ⟨C5_element_area.2.1 czero 0, C5_element_area.2.2.1 czero 0, ?_, ?_⟩
  · have h := (C5_element_area.1 planarGeom triSource czero 0 [6] (by decide)
      (C5_element_area.2.1 czero 0) 0 [1, 2, 3] 6 (by decide) (by decide)).1
      (0, 0) (3, 0) (0, 4) (by decide)
    exact h
  · exact (C5_element_area.2.2.2 planarGeom triSource czero 0 [6]
      (C5_element_area.2.1 czero 0) 6 (by decide))

/-- C7 counterexample: `set_nodes` called with 2 coordinates but 3 codes
(and, in the second group, 2 coordinates but 1 node id) does not fail at
all — it returns a geometry that stores the mismatched arrays as given,
with `n_nodes` set to the length of the codes array. In the embedding
`set_nodes` is a total function: the source method contains no length
check and no raise statement. -/
theorem C7_counterexample :
    (set_nodes emptyGeometry [(0, 0, 0), (1, 0, 0)] (some [0, 0, 0]) none none)._n_nodes
      = some 3 ∧
    (set_nodes emptyGeometry [(0, 0, 0), (1, 0, 0)] (some [0, 0, 0]) none none)._nc
      = some [(0, 0, 0), (1, 0, 0)] ∧
    (set_nodes emptyGeometry [(0, 0, 0), (1, 0, 0)] (some [0, 0, 0]) none none)._codes
      = some [0, 0, 0] ∧
    (set_nodes emptyGeometry [(0, 0, 0), (1, 0, 0)] none (some [7]) none)._node_ids
      = some [7] ∧
    (set_nodes emptyGeometry [(0, 0, 0), (1, 0, 0)] none (some [7]) none)._n_nodes
      = some 2 := by
  decide

/-- C7 amended: `set_nodes` performs no shape validation whatsoever: for
every combination of array lengths it stores the coordinate, code and id
arrays exactly as supplied, sets `n_nodes = len(codes)`, and returns
normally (no ShapeMismatch-style failure exists in the source). -/
theorem C7_set_nodes_no_validation (g : Geometry) (coords : List Q3) (cs : List Int)
    (ids : List Int) (p : Option String) :
    (set_nodes g coords (some cs) (some ids) p)._nc = some coords ∧
    (set_nodes g coords (some cs) (some ids) p)._codes = some cs ∧
    (set_nodes g coords (some cs) (some ids) p)._n_nodes = some cs.length ∧
    (set_nodes g coords (some cs) (some ids) p)._node_ids = some ids := by
  unfold set_nodes
  simp

/-- C8 counterexample: on a concrete 2d triangle geometry without layer
metadata, `num_layers_per_column` and `to_2d_geometry` both return the
normal value `None` (here `.ok none`) — neither raises any error. -/
theorem C8_counterexample :
    num_layers_per_column_val c8Geom = .ok none ∧
    to_2d_geometry c8Geom = .ok none := by
  decide

/-- C8 amended: on every geometry without layer metadata (and with the
layer-count cache in its initial `None` state), `num_layers_per_column`
prints a message and returns `None`, and `to_2d_geometry` prints a message
and returns `None`; no exception of any kind is raised. -/
theorem C8_no_layers_returns_none (g : Geometry)
    (hL : g._n_layers = none) (hNC : g._n_layers_column = none) :
    num_layers_per_column_val g = .ok none ∧ to_2d_geometry g = .ok none := by
  constructor
  · unfold num_layers_per_column_val
    rw [hL, hNC]
  · unfold to_2d_geometry
    rw [hL]

/-- C8 amended witness: the amended behaviour evaluated on the concrete 2d
triangle geometry. -/
theorem C8_no_layers_returns_none_witness :
    num_layers_per_column_val c8Geom = .ok none ∧ to_2d_geometry c8Geom = .ok none :=
  C8_no_layers_returns_none c8Geom rfl rfl

/-- C9 counterexample: read `valid_codes` once (caching `[0]`), then
replace the nodes via `set_nodes` with the new code array `[5]`; the next
`valid_codes` access still returns the stale cached `[0]`, not a value
computed from the newly supplied codes. -/
theorem C9_counterexample :
    valid_codes_state c9g0 = .ok ([0], c9g1) ∧
    c9g2._codes = some [5] ∧
    valid_codes_state c9g2 = .ok ([0], c9g2) ∧
    ([0] : List Int) ≠ [5] := by
  decide

/-- C9 amended: none of the structural mutations invalidates any cache:
`set_nodes`, `set_elements` and `reindex` all leave the cached valid-code
set and the cached element centroids untouched (`set_elements` does
replace the element table itself, and that is the only cache-like field a
mutation refreshes), and any later access returns a previously cached
value unchanged when one exists. -/
theorem C9_caches_not_invalidated :
    (∀ (g : Geometry) (coords : List Q3) (cs : Option (List Int))
        (ids : Option (List Int)) (p : Option String),
      (set_nodes g coords cs ids p)._valid_codes = g._valid_codes ∧
      (set_nodes g coords cs ids p)._ec = g._ec ∧
      (set_nodes g coords cs ids p)._element_table = g._element_table) ∧
    (∀ (g : Geometry) (tbl : List (List Int)) (ids : Option (List Int)) (t : Option Int),
      (set_elements g tbl ids t)._valid_codes = g._valid_codes ∧
      (set_elements g tbl ids t)._ec = g._ec ∧
      (set_elements g tbl ids t)._element_table = some tbl) ∧
    (∀ g g' : Geometry, reindex g = .ok g' →
      g'._valid_codes = g._valid_codes ∧ g'._ec = g._ec) ∧
    (∀ (g : Geometry) (v : List Int), g._valid_codes = some v →
      valid_codes_state g = .ok (v, g)) ∧
    (∀ (g : Geometry) (ec : List Q3), g._ec = some ec →
      element_coordinates_val g = .ok ec) := by
  refine ⟨?_, ?_, ?_, ?_, ?_⟩
  · intro g coords cs ids p
    unfold set_nodes
    simp
  · intro g tbl ids t
    have h := set_elements_fields g tbl ids t
    refine ⟨h.2.2.2.1, h.2.2.2.2, h.1⟩
  · intro g g' h
    have hf := reindex_ok_fields h
    exact ⟨hf.2.2.2.2.2.2.2.1, hf.2.2.2.2.2.1⟩
  · intro g v hv
    unfold valid_codes_state
    rw [hv]
  · intro g ec hec
    unfold element_coordinates_val
    rw [hec]

/-- C9 amended witness: the five conjuncts evaluated at concrete inputs —
a cached geometry mutated in every way, plus cached accessor reads. -/
theorem C9_caches_not_invalidated_witness :
    ((set_nodes c9Cached [(1, 1, 1)] none none none)._valid_codes = some [0] ∧
     (set_nodes c9Cached [(1, 1, 1)] none none none)._ec = some [(0, 0, 0)] ∧
     (set_nodes c9Cached [(1, 1, 1)] none none none)._element_table = none) ∧
    ((set_elements c9Cached [[0]] none (some 0))._valid_codes = some [0] ∧
     (set_elements c9Cached [[0]] none (some 0))._ec = some [(0, 0, 0)] ∧
     (set_elements c9Cached [[0]] none (some 0))._element_table = some [[0]]) ∧
    (c1Geom'._valid_codes = c1Geom._valid_codes ∧ c1Geom'._ec = c1Geom._ec) ∧
    valid_codes_state c9Cached = .ok ([0], c9Cached) ∧
    element_coordinates_val c9Cached = .ok [(0, 0, 0)] := by
  refine ⟨?_, ?_, ?_, ?_, ?_⟩
  · exact (C9_caches_not_invalidated.1 c9Cached [(1, 1, 1)] none none none)
  · exact (C9_caches_not_invalidated.2.1 c9Cached [[0]] none (some 0))
  · exact (C9_caches_not_invalidated.2.2.1 c1Geom c1Geom' (by decide))
  · exact (C9_caches_not_invalidated.2.2.2.1 c9Cached [0] rfl)
  · exact (C9_caches_not_invalidated.2.2.2.2 c9Cached [(0, 0, 0)] rfl)

theorem distList_length (ec : List Q3) (x y : ℚ) (z : Option ℚ) :
    (distList ec x y z).length = ec.length := by
  unfold distList
  cases z <;> simp

theorem argsort_length (d : List ℚ) : (argsort d).length = d.length := by
  unfold argsort
  rw [List.length_insertionSort, List.length_range]

theorem argsort_perm (d : List ℚ) : (argsort d).Perm (List.range d.length) :=
  List.perm_insertionSort _ _

theorem argsort_pairwise (d : List ℚ) :
    (argsort d).Pairwise (fun i j => d.getD i 0 ≤ d.getD j 0) := by
  haveI : IsTotal Nat (fun i j => d.getD i 0 ≤ d.getD j 0) :=
    ⟨fun i j => le_total (d.getD i 0) (d.getD j 0)⟩
  haveI : IsTrans Nat (fun i j => d.getD i 0 ≤ d.getD j 0) :=
    ⟨fun _ _ _ hij hjk => le_trans hij hjk⟩
  exact List.sorted_insertionSort _ _

/-- C10 counterexample: on a geometry with zero elements, `n = 1` exceeds
`n_elements = 0`, and the call fails with an IndexError (`idx[0]` on an
empty result array) instead of returning all zero element ids. -/
theorem C10_counterexample :
    c10Empty._n_elements = some 0 ∧
    find_n_closest_element_index c10Empty 0 0 none 1 = .error "IndexError" := by
  decide

/-- C10 amended: for every geometry with at least one element whose
centroid array is available, and every requested count `n` larger than
`n_elements`, `find_n_closest_element_index` does not fail: it silently
truncates the request and returns all `n_elements` element ids as an index
array, ordered by non-decreasing squared distance (a permutation of the
full index range). Only the degenerate zero-element geometry with `n = 1`
fails (see the counterexample). -/
theorem C10_find_truncates (g : Geometry) (ne : Nat) (ec : List Q3) (x y : ℚ)
    (z : Option ℚ) (n : Nat)
    (_hne : g._n_elements = some ne) (hec : element_coordinates_val g = .ok ec)
    (hlen : ec.length = ne) (h1 : 1 ≤ ne) (hn : ne < n) :
    find_n_closest_element_index g x y z n = .ok (.arr (argsort (distList ec x y z))) ∧
    (argsort (distList ec x y z)).length = ne ∧
    (argsort (distList ec x y z)).Perm (List.range ne) ∧
    (argsort (distList ec x y z)).Pairwise
      (fun i j => (distList ec x y z).getD i 0 ≤ (distList ec x y z).getD j 0) := by
  have hdlen : (distList ec x y z).length = ne := by rw [distList_length, hlen]
  have halen : (argsort (distList ec x y z)).length = ne := by
    rw [argsort_length, hdlen]
  refine ⟨?_, halen, ?_, argsort_pairwise _⟩
  · unfold find_n_closest_element_index
    rw [hec, ok_bind]
    dsimp only
    rw [List.take_of_length_le (by omega : (argsort (distList ec x y z)).length ≤ n)]
    rw [if_neg (by omega : ¬ n = 1)]
  · have := argsort_perm (distList ec x y z)
    rwa [hdlen] at this

/-- C10 amended witness: a 2-element geometry with cached centroids; asking
for the 3 closest to the origin returns both ids, distance-sorted. -/
theorem C10_find_truncates_witness :
    find_n_closest_element_index c10Geom 0 0 none 3
      = .ok (.arr (argsort (distList [(0, 0, 0), (3, 4, 0)] 0 0 none))) ∧
    (argsort (distList [(0, 0, 0), (3, 4, 0)] 0 0 none)).length = 2 ∧
    (argsort (distList [(0, 0, 0), (3, 4, 0)] 0 0 none)).Perm (List.range 2) ∧
    (argsort (distList [(0, 0, 0), (3, 4, 0)] 0 0 none)).Pairwise
      (fun i j => (distList [(0, 0, 0), (3, 4, 0)] 0 0 none).getD i 0 ≤
        (distList [(0, 0, 0), (3, 4, 0)] 0 0 none).getD j 0) :=
  C10_find_truncates c10Geom 2 [(0, 0, 0), (3, 4, 0)] 0 0 none 3
    rfl rfl (by decide) (by decide) (by decide)

end Mikeio
